import Mathlib

/-!
Verification of the Walkie-Talkie signaling server (server.js and its
upload-variant sibling) against its natural-language specification.

The server state is three JavaScript Maps: `channels` (channelId to a
channel record holding a member Map keyed by socketId), `users` (socketId
to a session record), and the socket.io room bookkeeping (a socket joins
room `channelId` on join-channel, leaves on leave-channel, and leaves all
rooms on disconnect).  We embed JavaScript's insertion-ordered `Map` as an
association list: `set` updates in place or appends, `delete` removes the
entry, `get` returns the first match.  Each socket-event handler becomes a
pure function from the state and the inbound payload to the new state and
the list of outbound messages; `socket.to(room).emit` becomes a map over
the room's occupants minus the sender.
-/

namespace Walkie

/-- JavaScript `Map.get`: first entry with the given key, if any. -/
def mget {α : Type} (m : List (String × α)) (k : String) : Option α :=
  match m with
  | [] => none
  | p :: rest => if p.1 = k then some p.2 else mget rest k

/-- JavaScript `Map.set`: update in place if the key is present, else append. -/
def mset {α : Type} (m : List (String × α)) (k : String) (v : α) : List (String × α) :=
  match m with
  | [] => [(k, v)]
  | p :: rest => if p.1 = k then (k, v) :: rest else p :: mset rest k v

/-- JavaScript `Map.delete`: remove the entry with the given key. -/
def mdel {α : Type} (m : List (String × α)) (k : String) : List (String × α) :=
  match m with
  | [] => []
  | p :: rest => if p.1 = k then mdel rest k else p :: mdel rest k

theorem mget_mset_self {α : Type} (m : List (String × α)) (k : String) (v : α) :
    mget (mset m k v) k = some v := by
  induction m with
  | nil => simp [mget, mset]
  | cons p rest ih =>
    by_cases h : p.1 = k
    · simp [mget, mset, h]
    · simp [mget, mset, h, ih]

theorem mget_mset_ne {α : Type} (m : List (String × α)) (k k' : String) (v : α)
    (h : k' ≠ k) : mget (mset m k v) k' = mget m k' := by
  have hk : ¬ k = k' := fun hh => h hh.symm
  induction m with
  | nil => simp [mget, mset, hk]
  | cons p rest ih =>
    by_cases hp : p.1 = k
    · have hpk' : ¬ p.1 = k' := by rw [hp]; exact hk
      simp [mget, mset, hp, hk, hpk']
    · by_cases hp' : p.1 = k'
      · simp [mget, mset, hp, hp', h]
      · simp [mget, mset, hp, hp', ih]

theorem mget_mdel_self {α : Type} (m : List (String × α)) (k : String) :
    mget (mdel m k) k = none := by
  induction m with
  | nil => simp [mget, mdel]
  | cons p rest ih =>
    by_cases h : p.1 = k
    · simp [mdel, h, ih]
    · simp [mget, mdel, h, ih]

theorem mget_mdel_ne {α : Type} (m : List (String × α)) (k k' : String)
    (h : k' ≠ k) : mget (mdel m k) k' = mget m k' := by
  have hk : ¬ k = k' := fun hh => h hh.symm
  induction m with
  | nil => simp [mdel]
  | cons p rest ih =>
    by_cases hp : p.1 = k
    · have hpk' : ¬ p.1 = k' := by rw [hp]; exact hk
      simp [mget, mdel, hp, hpk', hk, ih]
    · by_cases hp' : p.1 = k'
      · simp [mget, mdel, hp, hp', h]
      · simp [mget, mdel, hp, hp', ih]

theorem mset_of_not_mem {α : Type} (m : List (String × α)) (k : String) (v : α)
    (h : mget m k = none) : mset m k v = m ++ [(k, v)] := by
  induction m with
  | nil => simp [mset]
  | cons p rest ih =>
    by_cases hp : p.1 = k
    · simp [mget, hp] at h
    · simp [mget, hp] at h
      simp [mset, hp, ih h]

theorem mdel_of_not_mem {α : Type} (m : List (String × α)) (k : String)
    (h : mget m k = none) : mdel m k = m := by
  induction m with
  | nil => simp [mdel]
  | cons p rest ih =>
    by_cases hp : p.1 = k
    · simp [mget, hp] at h
    · simp [mget, hp] at h
      simp [mdel, hp, ih h]

theorem mdel_mdel {α : Type} (m : List (String × α)) (k : String) :
    mdel (mdel m k) k = mdel m k :=
  mdel_of_not_mem _ _ (mget_mdel_self m k)

theorem keys_mset_of_mem {α : Type} (m : List (String × α)) (k : String) (v : α)
    (h : mget m k ≠ none) : (mset m k v).map Prod.fst = m.map Prod.fst := by
  induction m with
  | nil => simp [mget] at h
  | cons p rest ih =>
    by_cases hp : p.1 = k
    · simp [mset, hp]
    · simp [mget, hp] at h
      simp [mset, hp, ih h]

theorem mget_ne_none_of_length_pos {α : Type} (m : List (String × α)) (k : String)
    (h : mget m k ≠ none) : m.length ≠ 0 := by
  cases m with
  | nil => simp [mget] at h
  | cons p rest => simp

theorem mget_filter {α : Type} (m : List (String × α)) (k : String) (v : α)
    (p : String × α → Bool) (h : mget m k = some v) (hp : p (k, v) = true) :
    mget (m.filter p) k = some v := by
  induction m with
  | nil => simp [mget] at h
  | cons q rest ih =>
    by_cases hq : q.1 = k
    · have hv : q.2 = v := by
        simp only [mget] at h
        rw [if_pos hq] at h
        exact Option.some.inj h
      have hq2 : q = (k, v) := Prod.ext hq hv
      rw [hq2]
      rw [List.filter_cons, if_pos hp]
      simp [mget]
    · simp only [mget] at h
      rw [if_neg hq] at h
      rw [List.filter_cons]
      by_cases hpq : p q = true
      · rw [if_pos hpq]
        simp [mget, hq, ih h]
      · rw [if_neg (by simp [hpq])]
        exact ih h

/-- Membership record inside a channel's `users` Map (value at key socketId). -/
structure Member where
  userId : String
  socketId : String
  joinedAt : Nat
  deriving DecidableEq

/-- A channel record, as created lazily on first join. -/
structure Channel where
  id : String
  users : List (String × Member)
  createdAt : Nat
  messageCount : Nat
  deriving DecidableEq

/-- A session record in the top-level `users` Map. -/
structure UserRec where
  socketId : String
  connectedAt : Nat
  currentChannel : Option String
  userId : Option String
  deriving DecidableEq

/-- The server's whole mutable state: the two Maps plus the socket.io room
bookkeeping (room name to occupant socketIds, insertion order). -/
structure ServerState where
  channels : List (String × Channel)
  users : List (String × UserRec)
  rooms : List (String × List String)
  deriving DecidableEq

def initState : ServerState := ⟨[], [], []⟩

/-- Payload of an outbound socket.io event. -/
inductive EvPayload where
  /-- `channel-users` carries a plain array of userIds. -/
  | userList (l : List String)
  /-- `user-joined` carries the joining userId. -/
  | joined (userId : String)
  /-- `user-left` carries a userId; on the disconnect path this is the
  stored (nullable) identity. -/
  | left (userId : Option String)
  /-- `transmission-start` / `transmission-end` carry userId and timestamp. -/
  | trans (userId : String) (timestamp : Nat)
  /-- WebRTC relays carry the sender tag and the opaque body. -/
  | relay (senderId : String) (body : String)
  /-- `connected` carries the socketId and a timestamp. -/
  | sockInfo (socketId : String) (timestamp : Nat)
  deriving DecidableEq

/-- One outbound message: destination socket, event name, payload. -/
structure Emit where
  target : String
  event : String
  payload : EvPayload
  deriving DecidableEq

/-- Occupants of a socket.io room (empty for an absent room). -/
def roomMembers (rooms : List (String × List String)) (chId : String) : List String :=
  (mget rooms chId).getD []

/-- `socket.join(chId)`: add the socket to the room if not already there. -/
def roomJoin (rooms : List (String × List String)) (chId sid : String) :
    List (String × List String) :=
  let cur := roomMembers rooms chId
  mset rooms chId (if sid ∈ cur then cur else cur ++ [sid])

/-- `socket.leave(chId)`: remove the socket from the room. -/
def roomLeave (rooms : List (String × List String)) (chId sid : String) :
    List (String × List String) :=
  mset rooms chId ((roomMembers rooms chId).filter (fun t => decide (t ≠ sid)))

/-- On transport disconnect, socket.io removes the socket from every room. -/
def roomsRemoveAll (rooms : List (String × List String)) (sid : String) :
    List (String × List String) :=
  rooms.map (fun p => (p.1, p.2.filter (fun t => decide (t ≠ sid))))

/-- `socket.to(room).emit(ev, p)`: deliver to each occupant except the sender. -/
def sendToRoom (room : List String) (sender : String) (ev : String) (p : EvPayload) :
    List Emit :=
  (room.filter (fun t => decide (t ≠ sender))).map (fun t => ⟨t, ev, p⟩)

/-- The `io.on(connection)` callback body before any handler runs: store a
fresh session record and emit `connected` back to the socket. -/
def onConnect (s : ServerState) (sid : String) (now : Nat) : ServerState × List Emit :=
  ({ s with users := mset s.users sid ⟨sid, now, none, none⟩ },
   [⟨sid, "connected", EvPayload.sockInfo sid now⟩])

/-- The `join-channel` handler (identical in both server files): create the
channel if absent, insert/overwrite the member record, set the session's
`currentChannel` and `userId`, join the socket.io room, send the joiner the
member list computed excluding it by socketId, and broadcast `user-joined`
to the rest of the room. -/
def onJoinChannel (s : ServerState) (sid channelId userId : String) (now : Nat) :
    ServerState × List Emit :=
  let channel : Channel :=
    match mget s.channels channelId with
    | some ch => ch
    | none => ⟨channelId, [], now, 0⟩
  let channel2 : Channel := { channel with users := mset channel.users sid ⟨userId, sid, now⟩ }
  let channels2 := mset s.channels channelId channel2
  let users2 :=
    match mget s.users sid with
    | some u => mset s.users sid { u with currentChannel := some channelId, userId := some userId }
    | none => s.users
  let rooms2 := roomJoin s.rooms channelId sid
  let snapshot :=
    ((channel2.users.map (fun q => q.2)).filter (fun m => decide (m.socketId ≠ sid))).map
      (fun m => m.userId)
  (⟨channels2, users2, rooms2⟩,
   ⟨sid, "channel-users", EvPayload.userList snapshot⟩ ::
     sendToRoom (roomMembers rooms2 channelId) sid "user-joined" (EvPayload.joined userId))

/-- The `leave-channel` handler (identical in both server files): if the
channel exists, delete the member entry, leave the room, broadcast
`user-left` carrying the payload's userId, and delete the channel when its
member Map became empty; then unconditionally clear the session's
`currentChannel`. -/
def onLeaveChannel (s : ServerState) (sid channelId userId : String) :
    ServerState × List Emit :=
  let step1 : ServerState × List Emit :=
    match mget s.channels channelId with
    | some channel =>
      let channel2 : Channel := { channel with users := mdel channel.users sid }
      let rooms2 := roomLeave s.rooms channelId sid
      let out := sendToRoom (roomMembers rooms2 channelId) sid "user-left"
        (EvPayload.left (some userId))
      let channels2 :=
        if channel2.users.length = 0 then mdel s.channels channelId
        else mset s.channels channelId channel2
      (⟨channels2, s.users, rooms2⟩, out)
    | none => (s, [])
  let s1 := step1.1
  let users2 :=
    match mget s1.users sid with
    | some u => mset s1.users sid { u with currentChannel := none }
    | none => s1.users
  (⟨s1.channels, users2, s1.rooms⟩, step1.2)

/-- The `disconnect` handler (identical in both server files): the cleanup
is guarded by the JavaScript truthiness check `if (user && user.currentChannel)`,
so it runs only when the session is registered and its currentChannel is
set to a nonempty string (the empty string is falsy and skips the cleanup).
When it runs and the channel exists, delete the member entry there,
broadcast `user-left` with the stored identity, and delete the channel when
empty; then delete the session record.  The transport also removes the
socket from every room. -/
def onDisconnect (s : ServerState) (sid : String) : ServerState × List Emit :=
  let step1 : List (String × Channel) × List Emit :=
    match mget s.users sid with
    | some u =>
      match u.currentChannel with
      | some chId =>
        if chId = "" then (s.channels, [])
        else
          match mget s.channels chId with
          | some channel =>
            let channel2 : Channel := { channel with users := mdel channel.users sid }
            let out := sendToRoom (roomMembers s.rooms chId) sid "user-left"
              (EvPayload.left u.userId)
            let channels2 :=
              if channel2.users.length = 0 then mdel s.channels chId
              else mset s.channels chId channel2
            (channels2, out)
          | none => (s.channels, [])
      | none => (s.channels, [])
    | none => (s.channels, [])
  (⟨step1.1, mdel s.users sid, roomsRemoveAll s.rooms sid⟩, step1.2)

/-- The `transmission-start` handler of server.js: broadcast to the room
minus the sender with a server-assigned timestamp, then bump the channel's
`messageCount`.  The inbound payload's timestamp field is never read
(the handler destructures only `channelId` and `userId`). -/
def onTransmissionStart (s : ServerState) (sid channelId userId : String)
    (_clientTs : Option Nat) (now : Nat) : ServerState × List Emit :=
  let out := sendToRoom (roomMembers s.rooms channelId) sid "transmission-start"
    (EvPayload.trans userId now)
  let channels2 :=
    match mget s.channels channelId with
    | some channel => mset s.channels channelId { channel with messageCount := channel.messageCount + 1 }
    | none => s.channels
  (⟨channels2, s.users, s.rooms⟩, out)

/-- The `transmission-end` handler: broadcast only, no state change; the
inbound timestamp field is likewise never read. -/
def onTransmissionEnd (s : ServerState) (sid channelId userId : String)
    (_clientTs : Option Nat) (now : Nat) : ServerState × List Emit :=
  (s, sendToRoom (roomMembers s.rooms channelId) sid "transmission-end"
    (EvPayload.trans userId now))

/-- The helper `findSocketIdByUserId` of server.js: linear scan of the
`users` Map for the first session whose stored userId strictly equals the
given one. -/
def findSocketIdByUserId (userRecs : List (String × UserRec)) (target : String) :
    Option String :=
  match userRecs with
  | [] => none
  | p :: rest => if p.2.userId = some target then some p.1 else findSocketIdByUserId rest target

/-- The sender tag `users.get(socket.id)?.userId || socket.id` used by the
globally-addressed relays; JavaScript `||` also falls back on the empty
string. -/
def senderTag (s : ServerState) (sid : String) : String :=
  match mget s.users sid with
  | some u =>
    match u.userId with
    | some uid => if uid = "" then sid else uid
    | none => sid
  | none => sid

/-- The `webrtc-offer` handler of server.js (global addressing): resolve
`to` through the registry scan and deliver to that one socket, else drop. -/
def onWebrtcOfferGlobal (s : ServerState) (sid toUserId body : String) : List Emit :=
  match findSocketIdByUserId s.users toUserId with
  | some tgt => [⟨tgt, "webrtc-offer", EvPayload.relay (senderTag s sid) body⟩]
  | none => []

/-- The `webrtc-answer` handler of server.js (global addressing). -/
def onWebrtcAnswerGlobal (s : ServerState) (sid toUserId body : String) : List Emit :=
  match findSocketIdByUserId s.users toUserId with
  | some tgt => [⟨tgt, "webrtc-answer", EvPayload.relay (senderTag s sid) body⟩]
  | none => []

/-- The `ice-candidate` handler of server.js (global addressing). -/
def onIceCandidateGlobal (s : ServerState) (sid toUserId body : String) : List Emit :=
  match findSocketIdByUserId s.users toUserId with
  | some tgt => [⟨tgt, "ice-candidate", EvPayload.relay (senderTag s sid) body⟩]
  | none => []

/-- The channel Map scan `Array.from(channel.users.values()).find(u =>
u.userId === targetUserId)` of the channel-scoped relays; an absent
`targetUserId` compares unequal to every stored string userId. -/
def findMemberByUserId (channel : Channel) (target : Option String) : Option Member :=
  (channel.users.map (fun q => q.2)).find? (fun m => decide (some m.userId = target))

/-- Two-stage destination resolution of the channel-scoped relays: channel
lookup, then member scan; `none` when either stage fails. -/
def resolveChannelMember (s : ServerState) (channelId : String) (target : Option String) :
    Option Member :=
  match mget s.channels channelId with
  | some channel => findMemberByUserId channel target
  | none => none

/-- The `webrtc-offer` handler of the upload-variant server (channel
scoped): always a broadcast to the rest of the room; the handler
destructures only `channelId`, `userId` and `offer`, so any `targetUserId`
in the payload is ignored. -/
def onWebrtcOfferChannel (s : ServerState) (sid channelId userId body : String)
    (_targetUserId : Option String) : List Emit :=
  sendToRoom (roomMembers s.rooms channelId) sid "webrtc-offer"
    (EvPayload.relay userId body)

/-- The `webrtc-answer` handler of the upload-variant server: always the
targeted scan, delivering to the single matching member, else dropping. -/
def onWebrtcAnswerChannel (s : ServerState) (_sid : String) (channelId userId body : String)
    (targetUserId : Option String) : List Emit :=
  match mget s.channels channelId with
  | some channel =>
    match findMemberByUserId channel targetUserId with
    | some m => [⟨m.socketId, "webrtc-answer", EvPayload.relay userId body⟩]
    | none => []
  | none => []

/-- The `webrtc-ice-candidate` handler of the upload-variant server: a
truthy `targetUserId` (present and nonempty) selects the targeted scan,
otherwise the payload is broadcast to the rest of the room. -/
def onWebrtcIceChannel (s : ServerState) (sid channelId userId body : String)
    (targetUserId : Option String) : List Emit :=
  match targetUserId with
  | some t =>
    if t = "" then
      sendToRoom (roomMembers s.rooms channelId) sid "webrtc-ice-candidate"
        (EvPayload.relay userId body)
    else
      match mget s.channels channelId with
      | some channel =>
        match findMemberByUserId channel (some t) with
        | some m => [⟨m.socketId, "webrtc-ice-candidate", EvPayload.relay userId body⟩]
        | none => []
      | none => []
  | none =>
    sendToRoom (roomMembers s.rooms channelId) sid "webrtc-ice-candidate"
      (EvPayload.relay userId body)

/-- The periodic empty-channel sweep: delete every channel whose member
Map is empty. -/
def sweepChannels (s : ServerState) : ServerState :=
  { s with channels := s.channels.filter (fun q => decide (q.2.users.length ≠ 0)) }

/-- The state-changing operations, for quantifying over reachable states. -/
inductive Op where
  | connect (sid : String) (now : Nat)
  | join (sid channelId userId : String) (now : Nat)
  | leave (sid channelId userId : String)
  | disconnect (sid : String)
  | sweep

/-- State transition of one operation (outbound messages discarded). -/
def stepState (s : ServerState) : Op → ServerState
  | .connect sid now => (onConnect s sid now).1
  | .join sid chId u now => (onJoinChannel s sid chId u now).1
  | .leave sid chId u => (onLeaveChannel s sid chId u).1
  | .disconnect sid => (onDisconnect s sid).1
  | .sweep => sweepChannels s

/-- State reached from the empty initial state by a list of operations. -/
def runOps (ops : List Op) : ServerState := ops.foldl stepState initState

/-- The `currentChannel` field of a registered session, if any. -/
def currentChannelOf (s : ServerState) (sid : String) : Option String :=
  Option.bind (mget s.users sid) (fun u => u.currentChannel)

/-- The membership record stored for a socket in a channel, if any. -/
def memberRecord (s : ServerState) (chId sid : String) : Option Member :=
  Option.bind (mget s.channels chId) (fun ch => mget ch.users sid)

/-- Whether the channel directory has the channel and its member Map has
the given socketId. -/
def channelHasMember (s : ServerState) (chId sid : String) : Bool :=
  (memberRecord s chId sid).isSome

/-- The member Map's key list (socketIds) of a channel, empty if absent. -/
def memberKeys (s : ServerState) (chId : String) : List String :=
  ((mget s.channels chId).map (fun ch => ch.users.map Prod.fst)).getD []

/-- Invariant: every registered session's `currentChannel`, when set, names
a channel whose member Map holds the session's socketId.  This is the
direction of the spec's Invariant I1 that the code maintains. -/
def Inv (s : ServerState) : Prop :=
  ∀ sid chId, currentChannelOf s sid = some chId → channelHasMember s chId sid = true

theorem channelHasMember_intro (s : ServerState) (chId sid : String) (ch : Channel)
    (h1 : mget s.channels chId = some ch) (h2 : mget ch.users sid ≠ none) :
    channelHasMember s chId sid = true := by
  simp only [channelHasMember, memberRecord, h1, Option.some_bind]
  exact Option.isSome_iff_ne_none.mpr h2

theorem channelHasMember_elim (s : ServerState) (chId sid : String)
    (h : channelHasMember s chId sid = true) :
    ∃ ch, mget s.channels chId = some ch ∧ mget ch.users sid ≠ none := by
  simp only [channelHasMember, memberRecord] at h
  cases hm : mget s.channels chId with
  | none => rw [hm] at h; simp at h
  | some ch =>
    rw [hm, Option.some_bind] at h
    exact ⟨ch, rfl, Option.isSome_iff_ne_none.mp h⟩

theorem inv_init : Inv initState := by
  intro sid chId hc
  simp [currentChannelOf, mget, initState] at hc

theorem inv_connect (s : ServerState) (sid : String) (now : Nat) (h : Inv s) :
    Inv (onConnect s sid now).1 := by
  intro sid' chId' hc
  simp only [onConnect] at hc ⊢
  by_cases hs : sid' = sid
  · subst hs
    simp only [currentChannelOf, mget_mset_self, Option.some_bind] at hc
    exact absurd hc (by simp)
  · simp only [currentChannelOf, mget_mset_ne s.users sid sid' _ hs] at hc
    have hmem := h sid' chId' hc
    obtain ⟨ch, h1, h2⟩ := channelHasMember_elim s chId' sid' hmem
    exact channelHasMember_intro _ chId' sid' ch h1 h2

theorem inv_join (s : ServerState) (sid chId u : String) (now : Nat) (h : Inv s) :
    Inv (onJoinChannel s sid chId u now).1 := by
  intro sid' chId' hc
  cases hm : mget s.channels chId with
  | some ch =>
    cases hu : mget s.users sid with
    | some u0 =>
      simp only [onJoinChannel, hm, hu] at hc ⊢
      by_cases hs : sid' = sid
      · subst hs
        simp only [currentChannelOf, mget_mset_self, Option.some_bind] at hc
        cases hc
        exact channelHasMember_intro _ chId sid' _ (mget_mset_self _ _ _)
          (by rw [mget_mset_self]; simp)
      · simp only [currentChannelOf, mget_mset_ne s.users sid sid' _ hs] at hc
        have hmem := h sid' chId' hc
        obtain ⟨ch', h1, h2⟩ := channelHasMember_elim s chId' sid' hmem
        by_cases hcc : chId' = chId
        · subst hcc
          rw [hm] at h1
          cases h1
          exact channelHasMember_intro _ chId' sid' _ (mget_mset_self _ _ _)
            (by rw [mget_mset_ne _ _ _ _ hs]; exact h2)
        · exact channelHasMember_intro _ chId' sid' ch'
            (by rw [mget_mset_ne _ _ _ _ hcc]; exact h1) h2
    | none =>
      simp only [onJoinChannel, hm, hu] at hc ⊢
      by_cases hs : sid' = sid
      · subst hs
        simp only [currentChannelOf, hu, Option.none_bind] at hc
        exact absurd hc (by simp)
      · simp only [currentChannelOf] at hc
        have hmem := h sid' chId' hc
        obtain ⟨ch', h1, h2⟩ := channelHasMember_elim s chId' sid' hmem
        by_cases hcc : chId' = chId
        · subst hcc
          rw [hm] at h1
          cases h1
          exact channelHasMember_intro _ chId' sid' _ (mget_mset_self _ _ _)
            (by rw [mget_mset_ne _ _ _ _ hs]; exact h2)
        · exact channelHasMember_intro _ chId' sid' ch'
            (by rw [mget_mset_ne _ _ _ _ hcc]; exact h1) h2
  | none =>
    cases hu : mget s.users sid with
    | some u0 =>
      simp only [onJoinChannel, hm, hu] at hc ⊢
      by_cases hs : sid' = sid
      · subst hs
        simp only [currentChannelOf, mget_mset_self, Option.some_bind] at hc
        cases hc
        exact channelHasMember_intro _ chId sid' _ (mget_mset_self _ _ _)
          (by rw [mget_mset_self]; simp)
      · simp only [currentChannelOf, mget_mset_ne s.users sid sid' _ hs] at hc
        have hmem := h sid' chId' hc
        obtain ⟨ch', h1, h2⟩ := channelHasMember_elim s chId' sid' hmem
        by_cases hcc : chId' = chId
        · subst hcc
          rw [hm] at h1
          cases h1
        · exact channelHasMember_intro _ chId' sid' ch'
            (by rw [mget_mset_ne _ _ _ _ hcc]; exact h1) h2
    | none =>
      simp only [onJoinChannel, hm, hu] at hc ⊢
      by_cases hs : sid' = sid
      · subst hs
        simp only [currentChannelOf, hu, Option.none_bind] at hc
        exact absurd hc (by simp)
      · simp only [currentChannelOf] at hc
        have hmem := h sid' chId' hc
        obtain ⟨ch', h1, h2⟩ := channelHasMember_elim s chId' sid' hmem
        by_cases hcc : chId' = chId
        · subst hcc
          rw [hm] at h1
          cases h1
        · exact channelHasMember_intro _ chId' sid' ch'
            (by rw [mget_mset_ne _ _ _ _ hcc]; exact h1) h2

theorem inv_leave_channels (s : ServerState) (sid chId : String) (ch : Channel)
    (hm : mget s.channels chId = some ch) (sid' chId' : String) (hs : sid' ≠ sid)
    (hmem : channelHasMember s chId' sid' = true) :
    channelHasMember
      ⟨if (mdel ch.users sid).length = 0 then mdel s.channels chId
        else mset s.channels chId { ch with users := mdel ch.users sid },
       s.users, roomLeave s.rooms chId sid⟩ chId' sid' = true := by
  obtain ⟨ch', h1, h2⟩ := channelHasMember_elim s chId' sid' hmem
  by_cases hcc : chId' = chId
  · subst hcc
    have hch : ch = ch' := by rw [hm] at h1; exact Option.some.inj h1
    have h2' : mget (mdel ch.users sid) sid' ≠ none := by
      rw [mget_mdel_ne _ _ _ hs, hch]; exact h2
    have hlen : ¬ (mdel ch.users sid).length = 0 :=
      mget_ne_none_of_length_pos _ _ h2'
    rw [if_neg hlen]
    exact channelHasMember_intro _ chId' sid' _ (mget_mset_self _ _ _) h2'
  · by_cases hlen : (mdel ch.users sid).length = 0
    · rw [if_pos hlen]
      exact channelHasMember_intro _ chId' sid' ch'
        (by rw [mget_mdel_ne _ _ _ hcc]; exact h1) h2
    · rw [if_neg hlen]
      exact channelHasMember_intro _ chId' sid' ch'
        (by rw [mget_mset_ne _ _ _ _ hcc]; exact h1) h2

theorem inv_leave (s : ServerState) (sid chId u : String) (h : Inv s) :
    Inv (onLeaveChannel s sid chId u).1 := by
  intro sid' chId' hc
  cases hm : mget s.channels chId with
  | some ch =>
    cases hu : mget s.users sid with
    | some u0 =>
      simp only [onLeaveChannel, hm, hu] at hc ⊢
      by_cases hs : sid' = sid
      · subst hs
        simp only [currentChannelOf, mget_mset_self, Option.some_bind] at hc
        exact absurd hc (by simp)
      · simp only [currentChannelOf, mget_mset_ne s.users sid sid' _ hs] at hc
        exact inv_leave_channels s sid chId ch hm sid' chId' hs (h sid' chId' hc)
    | none =>
      simp only [onLeaveChannel, hm, hu] at hc ⊢
      by_cases hs : sid' = sid
      · subst hs
        simp only [currentChannelOf, hu, Option.none_bind] at hc
        exact absurd hc (by simp)
      · simp only [currentChannelOf] at hc
        exact inv_leave_channels s sid chId ch hm sid' chId' hs (h sid' chId' hc)
  | none =>
    cases hu : mget s.users sid with
    | some u0 =>
      simp only [onLeaveChannel, hm, hu] at hc ⊢
      by_cases hs : sid' = sid
      · subst hs
        simp only [currentChannelOf, mget_mset_self, Option.some_bind] at hc
        exact absurd hc (by simp)
      · simp only [currentChannelOf, mget_mset_ne s.users sid sid' _ hs] at hc
        have hmem := h sid' chId' hc
        obtain ⟨ch', h1, h2⟩ := channelHasMember_elim s chId' sid' hmem
        exact channelHasMember_intro _ chId' sid' ch' h1 h2
    | none =>
      simp only [onLeaveChannel, hm, hu] at hc ⊢
      by_cases hs : sid' = sid
      · subst hs
        simp only [currentChannelOf, hu, Option.none_bind] at hc
        exact absurd hc (by simp)
      · simp only [currentChannelOf] at hc
        have hmem := h sid' chId' hc
        obtain ⟨ch', h1, h2⟩ := channelHasMember_elim s chId' sid' hmem
        exact channelHasMember_intro _ chId' sid' ch' h1 h2

theorem inv_disconnect (s : ServerState) (sid : String) (h : Inv s) :
    Inv (onDisconnect s sid).1 := by
  intro sid' chId' hc
  by_cases hs : sid' = sid
  · subst hs
    simp only [onDisconnect, currentChannelOf, mget_mdel_self, Option.none_bind] at hc
    exact absurd hc (by simp)
  · have hc' : currentChannelOf s sid' = some chId' := by
      simp only [onDisconnect, currentChannelOf, mget_mdel_ne s.users sid sid' hs] at hc
      exact hc
    have hmem := h sid' chId' hc'
    obtain ⟨ch', h1, h2⟩ := channelHasMember_elim s chId' sid' hmem
    cases hu : mget s.users sid with
    | none =>
      simp only [onDisconnect, hu]
      exact channelHasMember_intro _ chId' sid' ch' h1 h2
    | some u0 =>
      cases hcur : u0.currentChannel with
      | none =>
        simp only [onDisconnect, hu, hcur]
        exact channelHasMember_intro _ chId' sid' ch' h1 h2
      | some chId0 =>
        by_cases hemp : chId0 = ""
        · simp only [onDisconnect, hu, hcur, if_pos hemp]
          exact channelHasMember_intro _ chId' sid' ch' h1 h2
        · cases hm0 : mget s.channels chId0 with
          | none =>
            simp only [onDisconnect, hu, hcur, if_neg hemp, hm0]
            exact channelHasMember_intro _ chId' sid' ch' h1 h2
          | some ch0 =>
            simp only [onDisconnect, hu, hcur, if_neg hemp, hm0]
            by_cases hcc : chId' = chId0
            · subst hcc
              have hch : ch0 = ch' := by rw [hm0] at h1; exact Option.some.inj h1
              have h2' : mget (mdel ch0.users sid) sid' ≠ none := by
                rw [mget_mdel_ne _ _ _ hs, hch]; exact h2
              have hlen : ¬ (mdel ch0.users sid).length = 0 :=
                mget_ne_none_of_length_pos _ _ h2'
              rw [if_neg hlen]
              exact channelHasMember_intro _ chId' sid' _ (mget_mset_self _ _ _) h2'
            · by_cases hlen : (mdel ch0.users sid).length = 0
              · rw [if_pos hlen]
                exact channelHasMember_intro _ chId' sid' ch'
                  (by rw [mget_mdel_ne _ _ _ hcc]; exact h1) h2
              · rw [if_neg hlen]
                exact channelHasMember_intro _ chId' sid' ch'
                  (by rw [mget_mset_ne _ _ _ _ hcc]; exact h1) h2

theorem inv_sweep (s : ServerState) (h : Inv s) : Inv (sweepChannels s) := by
  intro sid' chId' hc
  have hc' : currentChannelOf s sid' = some chId' := hc
  have hmem := h sid' chId' hc'
  obtain ⟨ch', h1, h2⟩ := channelHasMember_elim s chId' sid' hmem
  have hkeep : mget (s.channels.filter (fun q => decide (q.2.users.length ≠ 0))) chId' = some ch' :=
    mget_filter s.channels chId' ch' _ h1
      (by simp [mget_ne_none_of_length_pos _ _ h2])
  exact channelHasMember_intro _ chId' sid' ch' hkeep h2

theorem inv_stepState (s : ServerState) (op : Op) (h : Inv s) : Inv (stepState s op) := by
  cases op with
  | connect sid now => exact inv_connect s sid now h
  | join sid chId u now => exact inv_join s sid chId u now h
  | leave sid chId u => exact inv_leave s sid chId u h
  | disconnect sid => exact inv_disconnect s sid h
  | sweep => exact inv_sweep s h

theorem inv_runOps_from (ops : List Op) : ∀ s, Inv s → Inv (ops.foldl stepState s) := by
  induction ops with
  | nil => intro s h; exact h
  | cons op rest ih => intro s h; exact ih (stepState s op) (inv_stepState s op h)

theorem inv_runOps (ops : List Op) : Inv (runOps ops) :=
  inv_runOps_from ops initState inv_init

/-- C1, counterexample: the biconditional form of Invariant I1 fails in a
reachable state.  After connect A, join A ch1, join A ch2 (a join-channel
to a second channel by a connection already a member of another), channel
ch1's member Map still contains A's connection id, yet A's currentChannel
is ch2, not ch1 — the join handler never removes the old channel's entry. -/
theorem c1_counterexample :
    channelHasMember
        (runOps [Op.connect "A" 0, Op.join "A" "ch1" "alice" 1, Op.join "A" "ch2" "alice" 2])
        "ch1" "A" = true ∧
    currentChannelOf
        (runOps [Op.connect "A" 0, Op.join "A" "ch1" "alice" 1, Op.join "A" "ch2" "alice" 2])
        "A" = some "ch2" ∧
    currentChannelOf
        (runOps [Op.connect "A" 0, Op.join "A" "ch1" "alice" 1, Op.join "A" "ch2" "alice" 2])
        "A" ≠ some "ch1" := by
  decide

/-- C1, amended: in every state reachable by connect, join-channel,
leave-channel, disconnect and janitor-sweep operations, the forward
direction of Invariant I1 holds: whenever a registered connection's
currentChannel is channel c, c exists and its member Map contains that
connection's id.  The converse direction — membership implying
currentChannel — is the part the counterexample refutes. -/
theorem c1_amended_current_implies_member (ops : List Op) (sid chId : String)
    (h : currentChannelOf (runOps ops) sid = some chId) :
    channelHasMember (runOps ops) chId sid = true :=
  inv_runOps ops sid chId h

/-- Witness for the amended C1 theorem at a concrete reachable state. -/
theorem c1_amended_current_implies_member_witness :
    channelHasMember (runOps [Op.connect "A" 0, Op.join "A" "ch1" "alice" 1]) "ch1" "A" = true :=
  c1_amended_current_implies_member [Op.connect "A" 0, Op.join "A" "ch1" "alice" 1] "A" "ch1"
    (by decide)

/-- C3, counterexample: a second join-channel by the same connection to the
same channel is not a no-op on the membership record.  Joining ch as alice
at time 1 stores the record (alice, A, 1); joining again as bob at time 5
overwrites it with (bob, A, 5) — `Map.set` replaces the value, refreshing
joinedAt and taking the newly supplied userId. -/
theorem c3_counterexample :
    memberRecord (runOps [Op.connect "A" 0, Op.join "A" "ch" "alice" 1]) "ch" "A" =
      some ⟨"alice", "A", 1⟩ ∧
    memberRecord
        (runOps [Op.connect "A" 0, Op.join "A" "ch" "alice" 1, Op.join "A" "ch" "bob" 5])
        "ch" "A" = some ⟨"bob", "A", 5⟩ ∧
    memberRecord
        (runOps [Op.connect "A" 0, Op.join "A" "ch" "alice" 1, Op.join "A" "ch" "bob" 5])
        "ch" "A" ≠ some ⟨"alice", "A", 1⟩ := by
  decide

/-- C3, amended: a repeated join-channel by a connection already in the
channel's member Map keeps the member key list (hence the member set and
its size) unchanged, but overwrites that connection's membership record
with the newly supplied userId and a fresh joinedAt. -/
theorem c3_amended_rejoin_overwrites (s : ServerState) (sid chId u2 : String) (now : Nat)
    (ch : Channel) (hch : mget s.channels chId = some ch)
    (hmem : mget ch.users sid ≠ none) :
    memberKeys (onJoinChannel s sid chId u2 now).1 chId = memberKeys s chId ∧
    memberRecord (onJoinChannel s sid chId u2 now).1 chId sid = some ⟨u2, sid, now⟩ := by
  constructor
  · simp only [onJoinChannel, hch, memberKeys, mget_mset_self]
    simp [keys_mset_of_mem ch.users sid _ hmem]
  · simp only [onJoinChannel, hch, memberRecord, mget_mset_self, Option.some_bind]

/-- Witness for the amended C3 theorem at a concrete state. -/
theorem c3_amended_rejoin_overwrites_witness :
    memberKeys
        (onJoinChannel (runOps [Op.connect "A" 0, Op.join "A" "ch" "alice" 1]) "A" "ch" "bob" 5).1
        "ch" =
      memberKeys (runOps [Op.connect "A" 0, Op.join "A" "ch" "alice" 1]) "ch" ∧
    memberRecord
        (onJoinChannel (runOps [Op.connect "A" 0, Op.join "A" "ch" "alice" 1]) "A" "ch" "bob" 5).1
        "ch" "A" = some ⟨"bob", "A", 5⟩ :=
  c3_amended_rejoin_overwrites _ "A" "ch" "bob" 5
    ⟨"ch", [("A", ⟨"alice", "A", 1⟩)], 1, 0⟩ (by decide) (by decide)

/-- C5: joining a previously absent channel and then leaving it again (same
connection, same channel, nobody else involved) leaves the channelId absent
from the channel directory: the leave handler deletes the entry for the
now-empty channel synchronously. -/
theorem c5_join_then_leave_deletes (s : ServerState) (sid chId u1 u2 : String) (now : Nat)
    (habs : mget s.channels chId = none) :
    mget ((onLeaveChannel (onJoinChannel s sid chId u1 now).1 sid chId u2).1).channels chId =
      none := by
  have hget : mget (onJoinChannel s sid chId u1 now).1.channels chId =
      some ⟨chId, [(sid, ⟨u1, sid, now⟩)], now, 0⟩ := by
    simp only [onJoinChannel, habs]
    have : mset ([] : List (String × Member)) sid ⟨u1, sid, now⟩ = [(sid, ⟨u1, sid, now⟩)] := by
      simp [mset]
    rw [this]
    exact mget_mset_self _ _ _
  simp only [onLeaveChannel, hget]
  simp [mdel, mget_mdel_self]

/-- Witness for the C5 theorem at a concrete state. -/
theorem c5_join_then_leave_deletes_witness :
    mget ((onLeaveChannel (onJoinChannel (runOps [Op.connect "A" 0]) "A" "room1" "u" 1).1
        "A" "room1" "u").1).channels "room1" = none :=
  c5_join_then_leave_deletes _ "A" "room1" "u" "u" 1 (by decide)

theorem countP_map_eq {α β : Type} (f : α → β) (p : β → Bool) (l : List α) :
    (l.map f).countP p = l.countP (fun a => p (f a)) := by
  induction l with
  | nil => rfl
  | cons a rest ih => simp [List.countP_cons, ih]

theorem countP_eq_one_of_nodup_mem (l : List String) (x : String)
    (hn : l.Nodup) (hx : x ∈ l) :
    l.countP (fun t => decide (t = x)) = 1 := by
  induction l with
  | nil => cases hx
  | cons a rest ih =>
    rcases List.mem_cons.mp hx with rfl | hx'
    · rw [List.countP_cons]
      have hzero : rest.countP (fun t => decide (t = x)) = 0 := by
        rw [List.countP_eq_zero]
        intro b hb
        simp only [decide_eq_true_eq]
        rintro rfl
        exact (List.nodup_cons.mp hn).1 hb
      simp [hzero]
    · rw [List.countP_cons]
      have ha : ¬ a = x := by
        rintro rfl
        exact (List.nodup_cons.mp hn).1 hx'
      simp [ha, ih (List.nodup_cons.mp hn).2 hx']

theorem sendToRoom_mem_event (room : List String) (sender ev : String) (p : EvPayload) :
    ∀ e ∈ sendToRoom room sender ev p, e.event = ev ∧ e.payload = p := by
  intro e he
  simp only [sendToRoom, List.mem_map] at he
  obtain ⟨t, _, rfl⟩ := he
  exact ⟨rfl, rfl⟩

theorem sendToRoom_countP_target (room : List String) (sender ev : String) (p : EvPayload)
    (x : String) :
    (sendToRoom room sender ev p).countP (fun e => decide (e.target = x ∧ e.event = ev)) =
      (room.filter (fun t => decide (t ≠ sender))).countP (fun t => decide (t = x)) := by
  simp only [sendToRoom]
  rw [countP_map_eq]
  congr 1
  funext t
  simp

theorem sendToRoom_filter_sender (room : List String) (sender ev : String) (p : EvPayload) :
    sendToRoom (room.filter (fun t => decide (t ≠ sender))) sender ev p =
      sendToRoom room sender ev p := by
  simp only [sendToRoom, List.filter_filter]
  congr 1
  apply List.filter_congr
  intro a _
  simp

theorem roomMembers_roomLeave (rooms : List (String × List String)) (chId sid : String) :
    roomMembers (roomLeave rooms chId sid) chId =
      (roomMembers rooms chId).filter (fun t => decide (t ≠ sid)) := by
  simp [roomLeave, roomMembers, mget_mset_self]

theorem roomMembers_roomJoin (rooms : List (String × List String)) (chId sid : String) :
    roomMembers (roomJoin rooms chId sid) chId =
      (if sid ∈ roomMembers rooms chId then roomMembers rooms chId
       else roomMembers rooms chId ++ [sid]) := by
  simp [roomJoin, roomMembers, mget_mset_self]

/-- C2, counterexample: the snapshot excludes the joiner's connection, not
the joiner's userId value.  Channel ch1 has one existing member (connection
A with userId u, not connection B); connection B joins also under userId u
and the single channel-users snapshot delivered to B is exactly the list
containing u — the joiner's own userId appears in it. -/
theorem c2_counterexample :
    ((onJoinChannel (runOps [Op.connect "A" 0, Op.join "A" "ch1" "u" 1, Op.connect "B" 2])
        "B" "ch1" "u" 3).2.filter (fun e => decide (e.event = "channel-users"))) =
      [⟨"B", "channel-users", EvPayload.userList ["u"]⟩] := by
  decide

/-- C2, amended: joining a channel whose member Map holds N entries, none
of them the joining connection and all of them occupying the channel's
room, delivers to the joiner exactly one channel-users snapshot listing
exactly the N existing members' userIds in member order (the joiner's own
entry excluded by socketId, so the joiner's userId value can still appear
when another member shares it), and delivers to each existing member's
socket exactly one user-joined event, every user-joined carrying the new
member's userId. -/
theorem c2_amended_join_snapshot (s : ServerState) (sid chId uJ : String) (now : Nat)
    (ch : Channel)
    (hch : mget s.channels chId = some ch)
    (hnot : mget ch.users sid = none)
    (hsock : ∀ q ∈ ch.users, q.2.socketId ≠ sid)
    (hroom : ∀ q ∈ ch.users, q.2.socketId ∈ roomMembers s.rooms chId)
    (hnodup : (roomMembers s.rooms chId).Nodup) :
    ((onJoinChannel s sid chId uJ now).2.filter (fun e => decide (e.event = "channel-users"))) =
      [⟨sid, "channel-users", EvPayload.userList (ch.users.map (fun q => q.2.userId))⟩] ∧
    (∀ q ∈ ch.users,
      (onJoinChannel s sid chId uJ now).2.countP
        (fun e => decide (e.target = q.2.socketId ∧ e.event = "user-joined")) = 1) ∧
    (∀ e ∈ (onJoinChannel s sid chId uJ now).2, e.event = "user-joined" →
      e.payload = EvPayload.joined uJ) := by
  have hsnap : (((mset ch.users sid ⟨uJ, sid, now⟩).map (fun q => q.2)).filter
        (fun m => decide (m.socketId ≠ sid))).map (fun m => m.userId) =
      ch.users.map (fun q => q.2.userId) := by
    rw [mset_of_not_mem _ _ _ hnot, List.map_append, List.filter_append]
    have h1 : ((ch.users.map (fun q => q.2)).filter (fun m => decide (m.socketId ≠ sid))) =
        ch.users.map (fun q => q.2) := by
      rw [List.filter_eq_self]
      intro m hm
      obtain ⟨q, hq, rfl⟩ := List.mem_map.mp hm
      simpa using hsock q hq
    rw [h1]
    simp [List.map_map, Function.comp]
  have hout : (onJoinChannel s sid chId uJ now).2 =
      ⟨sid, "channel-users", EvPayload.userList (ch.users.map (fun q => q.2.userId))⟩ ::
        sendToRoom (roomMembers (roomJoin s.rooms chId sid) chId) sid "user-joined"
          (EvPayload.joined uJ) := by
    simp only [onJoinChannel, hch, hsnap]
  have hfilterR : (roomMembers (roomJoin s.rooms chId sid) chId).filter
        (fun t => decide (t ≠ sid)) =
      (roomMembers s.rooms chId).filter (fun t => decide (t ≠ sid)) := by
    rw [roomMembers_roomJoin]
    by_cases hin : sid ∈ roomMembers s.rooms chId
    · rw [if_pos hin]
    · rw [if_neg hin, List.filter_append]
      simp
  refine ⟨?_, ?_, ?_⟩
  · rw [hout]
    have hnil : (sendToRoom (roomMembers (roomJoin s.rooms chId sid) chId) sid "user-joined"
        (EvPayload.joined uJ)).filter (fun e => decide (e.event = "channel-users")) = [] := by
      rw [List.filter_eq_nil_iff]
      intro e he
      have hev := (sendToRoom_mem_event _ _ _ _ e he).1
      simp [hev]
    simp [List.filter_cons, hnil]
  · intro q hq
    rw [hout, List.countP_cons, sendToRoom_countP_target, hfilterR]
    have hone : ((roomMembers s.rooms chId).filter (fun t => decide (t ≠ sid))).countP
        (fun t => decide (t = q.2.socketId)) = 1 :=
      countP_eq_one_of_nodup_mem _ _ (List.Nodup.filter _ hnodup)
        (List.mem_filter.mpr ⟨hroom q hq, by simp [hsock q hq]⟩)
    rw [hone]
    simp
  · intro e he hev
    rw [hout] at he
    rcases List.mem_cons.mp he with rfl | hbr
    · simp at hev
    · exact (sendToRoom_mem_event _ _ _ _ e hbr).2

/-- Witness for the amended C2 theorem at a concrete state: channel ch1
holds one member (connection A, userId u1, in the room); connection B joins
as u2. -/
theorem c2_amended_join_snapshot_witness :
    ((onJoinChannel (runOps [Op.connect "A" 0, Op.join "A" "ch1" "u1" 1, Op.connect "B" 2])
        "B" "ch1" "u2" 3).2.filter (fun e => decide (e.event = "channel-users"))) =
      [⟨"B", "channel-users", EvPayload.userList ["u1"]⟩] ∧
    (onJoinChannel (runOps [Op.connect "A" 0, Op.join "A" "ch1" "u1" 1, Op.connect "B" 2])
        "B" "ch1" "u2" 3).2.countP
      (fun e => decide (e.target = "A" ∧ e.event = "user-joined")) = 1 := by
  have h := c2_amended_join_snapshot
    (runOps [Op.connect "A" 0, Op.join "A" "ch1" "u1" 1, Op.connect "B" 2])
    "B" "ch1" "u2" 3 ⟨"ch1", [("A", ⟨"u1", "A", 1⟩)], 1, 0⟩
    (by decide) (by decide) (by decide) (by decide) (by decide)
  exact ⟨h.1, h.2.1 ("A", ⟨"u1", "A", 1⟩) (by decide)⟩

/-- C4, counterexample: leave-channel of a channel the caller is not a
member of is not a no-op.  With A joined to ch1 and B joined to ch2:
A's leave-channel naming ch2 broadcasts user-left to B, and A's
leave-channel naming the unknown channel nope emits nothing but still
clears A's currentChannel (it was ch1 before). -/
theorem c4_counterexample :
    (onLeaveChannel
        (runOps [Op.connect "A" 0, Op.join "A" "ch1" "alice" 1, Op.connect "B" 2,
          Op.join "B" "ch2" "bob" 3]) "A" "ch2" "alice").2 =
      [⟨"B", "user-left", EvPayload.left (some "alice")⟩] ∧
    currentChannelOf
        (runOps [Op.connect "A" 0, Op.join "A" "ch1" "alice" 1, Op.connect "B" 2,
          Op.join "B" "ch2" "bob" 3]) "A" = some "ch1" ∧
    (onLeaveChannel
        (runOps [Op.connect "A" 0, Op.join "A" "ch1" "alice" 1, Op.connect "B" 2,
          Op.join "B" "ch2" "bob" 3]) "A" "nope" "alice").2 = [] ∧
    currentChannelOf
        (onLeaveChannel
          (runOps [Op.connect "A" 0, Op.join "A" "ch1" "alice" 1, Op.connect "B" 2,
            Op.join "B" "ch2" "bob" 3]) "A" "nope" "alice").1 "A" = none := by
  decide

/-- C4, amended: leave-channel naming an unknown channelId emits nothing
and leaves the channel directory unchanged but unconditionally clears the
caller's currentChannel; leave-channel naming an existing channel the
caller is not a member of broadcasts user-left (with the payload's userId)
to the channel's room minus the caller, leaves the channel's member Map
unchanged (deleting the whole channel only when it was already empty), and
likewise clears the caller's currentChannel. -/
theorem c4_amended_leave_not_member (s : ServerState) (sid chId uid : String) :
    (mget s.channels chId = none →
       (onLeaveChannel s sid chId uid).2 = [] ∧
       (onLeaveChannel s sid chId uid).1.channels = s.channels ∧
       currentChannelOf (onLeaveChannel s sid chId uid).1 sid = none) ∧
    (∀ ch, mget s.channels chId = some ch → mget ch.users sid = none →
       (onLeaveChannel s sid chId uid).2 =
         sendToRoom (roomMembers s.rooms chId) sid "user-left" (EvPayload.left (some uid)) ∧
       mget (onLeaveChannel s sid chId uid).1.channels chId =
         (if ch.users.length = 0 then none else some ch) ∧
       currentChannelOf (onLeaveChannel s sid chId uid).1 sid = none) := by
  constructor
  · intro habs
    refine ⟨by simp [onLeaveChannel, habs], by simp [onLeaveChannel, habs], ?_⟩
    cases hu : mget s.users sid with
    | some u0 =>
      simp [onLeaveChannel, habs, hu, currentChannelOf, mget_mset_self]
    | none =>
      simp [onLeaveChannel, habs, hu, currentChannelOf]
  · intro ch hch hnm
    have hdel : mdel ch.users sid = ch.users := mdel_of_not_mem _ _ hnm
    refine ⟨?_, ?_, ?_⟩
    · simp only [onLeaveChannel, hch]
      rw [roomMembers_roomLeave, sendToRoom_filter_sender]
    · simp only [onLeaveChannel, hch, hdel]
      by_cases hlen : ch.users.length = 0
      · rw [if_pos hlen, if_pos hlen]
        exact mget_mdel_self _ _
      · rw [if_neg hlen, if_neg hlen]
        have hchx : ({ ch with users := ch.users } : Channel) = ch := rfl
        rw [hchx]
        exact mget_mset_self _ _ _
    · cases hu : mget s.users sid with
      | some u0 =>
        simp [onLeaveChannel, hch, hu, currentChannelOf, mget_mset_self]
      | none =>
        simp [onLeaveChannel, hch, hu, currentChannelOf]

/-- Witness for the amended C4 theorem at a concrete state (both the
unknown-channel and the not-a-member branches). -/
theorem c4_amended_leave_not_member_witness :
    (onLeaveChannel
        (runOps [Op.connect "A" 0, Op.join "A" "ch1" "alice" 1, Op.connect "B" 2,
          Op.join "B" "ch2" "bob" 3]) "A" "nope" "alice").2 = [] ∧
    (onLeaveChannel
        (runOps [Op.connect "A" 0, Op.join "A" "ch1" "alice" 1, Op.connect "B" 2,
          Op.join "B" "ch2" "bob" 3]) "A" "ch2" "alice").2 =
      sendToRoom
        (roomMembers
          (runOps [Op.connect "A" 0, Op.join "A" "ch1" "alice" 1, Op.connect "B" 2,
            Op.join "B" "ch2" "bob" 3]).rooms "ch2") "A" "user-left"
        (EvPayload.left (some "alice")) := by
  have h1 := (c4_amended_leave_not_member
    (runOps [Op.connect "A" 0, Op.join "A" "ch1" "alice" 1, Op.connect "B" 2,
      Op.join "B" "ch2" "bob" 3]) "A" "nope" "alice").1 (by decide)
  have h2 := (c4_amended_leave_not_member
    (runOps [Op.connect "A" 0, Op.join "A" "ch1" "alice" 1, Op.connect "B" 2,
      Op.join "B" "ch2" "bob" 3]) "A" "ch2" "alice").2
    ⟨"ch2", [("B", ⟨"bob", "B", 3⟩)], 3, 0⟩ (by decide) (by decide)
  exact ⟨h1.1, h2.1⟩

/-- C6: a signaling relay whose destination resolves to no connected
member emits nothing at all — neither to the resolved target (there is
none) nor back to the sender.  Covers the three globally-addressed relays
of server.js (registry scan comes up empty) and the two targeted
channel-scoped relays of the upload variant (channel missing or no member
with the target userId); a nonempty explicit target is required for the
ICE handler to take its targeted branch. -/
theorem c6_unresolved_destination_drops (s : ServerState) (sid toUserId body : String)
    (h : findSocketIdByUserId s.users toUserId = none) :
    onWebrtcOfferGlobal s sid toUserId body = [] ∧
    onWebrtcAnswerGlobal s sid toUserId body = [] ∧
    onIceCandidateGlobal s sid toUserId body = [] ∧
    (∀ chId u t, t ≠ "" → resolveChannelMember s chId (some t) = none →
       onWebrtcAnswerChannel s sid chId u body (some t) = [] ∧
       onWebrtcIceChannel s sid chId u body (some t) = []) := by
  refine ⟨by simp [onWebrtcOfferGlobal, h], by simp [onWebrtcAnswerGlobal, h],
    by simp [onIceCandidateGlobal, h], ?_⟩
  intro chId u t ht hres
  cases hm : mget s.channels chId with
  | none => simp [onWebrtcAnswerChannel, onWebrtcIceChannel, hm, ht]
  | some ch =>
    have hfind : findMemberByUserId ch (some t) = none := by
      simpa [resolveChannelMember, hm] using hres
    simp [onWebrtcAnswerChannel, onWebrtcIceChannel, hm, ht, hfind]

/-- Witness for the C6 theorem at a concrete state: the identity ghost is
not connected and not a member of ch1. -/
theorem c6_unresolved_destination_drops_witness :
    onWebrtcOfferGlobal (runOps [Op.connect "A" 0, Op.join "A" "ch1" "a" 1]) "A" "ghost" "o"
      = [] ∧
    onWebrtcAnswerGlobal (runOps [Op.connect "A" 0, Op.join "A" "ch1" "a" 1]) "A" "ghost" "o"
      = [] ∧
    onIceCandidateGlobal (runOps [Op.connect "A" 0, Op.join "A" "ch1" "a" 1]) "A" "ghost" "o"
      = [] ∧
    onWebrtcAnswerChannel (runOps [Op.connect "A" 0, Op.join "A" "ch1" "a" 1]) "A" "ch1" "a" "o"
      (some "ghost") = [] ∧
    onWebrtcIceChannel (runOps [Op.connect "A" 0, Op.join "A" "ch1" "a" 1]) "A" "ch1" "a" "o"
      (some "ghost") = [] := by
  have h := c6_unresolved_destination_drops
    (runOps [Op.connect "A" 0, Op.join "A" "ch1" "a" 1]) "A" "ghost" "o" (by decide)
  have h4 := h.2.2.2 "ch1" "a" "ghost" (by decide) (by decide)
  exact ⟨h.1, h.2.1, h.2.2.1, h4.1, h4.2⟩

theorem findMemberByUserId_absent_target (ch : Channel) :
    findMemberByUserId ch none = none := by
  rw [findMemberByUserId, List.find?_eq_none]
  intro m _
  simp

/-- C7, counterexample: the channel-scoped variant does not give all three
payload kinds both addressing modes.  In a three-member channel (A, B, C
with userIds a, b, c): A's webrtc-offer carrying an explicit targetUserId b
is still broadcast to both B and C (the offer handler never reads
targetUserId), and A's webrtc-answer with no targetUserId is dropped
outright instead of being broadcast (the answer handler only does the
targeted scan). -/
theorem c7_counterexample :
    onWebrtcOfferChannel
        (runOps [Op.connect "A" 0, Op.connect "B" 1, Op.connect "C" 2,
          Op.join "A" "ch1" "a" 3, Op.join "B" "ch1" "b" 4, Op.join "C" "ch1" "c" 5])
        "A" "ch1" "a" "o" (some "b") =
      [⟨"B", "webrtc-offer", EvPayload.relay "a" "o"⟩,
       ⟨"C", "webrtc-offer", EvPayload.relay "a" "o"⟩] ∧
    onWebrtcAnswerChannel
        (runOps [Op.connect "A" 0, Op.connect "B" 1, Op.connect "C" 2,
          Op.join "A" "ch1" "a" 3, Op.join "B" "ch1" "b" 4, Op.join "C" "ch1" "c" 5])
        "A" "ch1" "a" "ans" none = [] := by
  decide

/-- C7, amended: in the channel-scoped variant only the ICE handler has
both addressing modes.  webrtc-offer always broadcasts to the rest of the
channel's room, ignoring any targetUserId; webrtc-answer always performs
the targeted member scan, so with no targetUserId it matches nobody and
drops the payload; webrtc-ice-candidate broadcasts when targetUserId is
absent (or the falsy empty string) and otherwise delivers to exactly the
single member found by scanning the channel's member Map for that userId,
dropping the payload if none exists. -/
theorem c7_amended_channel_routing (s : ServerState) (sid chId u body : String) :
    (∀ t1 t2 : Option String,
       onWebrtcOfferChannel s sid chId u body t1 = onWebrtcOfferChannel s sid chId u body t2) ∧
    (onWebrtcOfferChannel s sid chId u body none =
       sendToRoom (roomMembers s.rooms chId) sid "webrtc-offer" (EvPayload.relay u body)) ∧
    (onWebrtcAnswerChannel s sid chId u body none = []) ∧
    (∀ t m, t ≠ "" → resolveChannelMember s chId (some t) = some m →
       onWebrtcAnswerChannel s sid chId u body (some t) =
         [⟨m.socketId, "webrtc-answer", EvPayload.relay u body⟩] ∧
       onWebrtcIceChannel s sid chId u body (some t) =
         [⟨m.socketId, "webrtc-ice-candidate", EvPayload.relay u body⟩]) ∧
    (∀ t, t ≠ "" → resolveChannelMember s chId (some t) = none →
       onWebrtcAnswerChannel s sid chId u body (some t) = [] ∧
       onWebrtcIceChannel s sid chId u body (some t) = []) ∧
    (onWebrtcIceChannel s sid chId u body none =
       sendToRoom (roomMembers s.rooms chId) sid "webrtc-ice-candidate"
         (EvPayload.relay u body)) ∧
    (onWebrtcIceChannel s sid chId u body (some "") =
       sendToRoom (roomMembers s.rooms chId) sid "webrtc-ice-candidate"
         (EvPayload.relay u body)) := by
  refine ⟨fun t1 t2 => rfl, rfl, ?_, ?_, ?_, rfl, by simp [onWebrtcIceChannel]⟩
  · cases hm : mget s.channels chId with
    | none => simp [onWebrtcAnswerChannel, hm]
    | some ch => simp [onWebrtcAnswerChannel, hm, findMemberByUserId_absent_target]
  · intro t m ht hres
    cases hm : mget s.channels chId with
    | none => simp [resolveChannelMember, hm] at hres
    | some ch =>
      have hfind : findMemberByUserId ch (some t) = some m := by
        simpa [resolveChannelMember, hm] using hres
      exact ⟨by simp [onWebrtcAnswerChannel, hm, hfind],
        by simp [onWebrtcIceChannel, ht, hm, hfind]⟩
  · intro t ht hres
    cases hm : mget s.channels chId with
    | none => simp [onWebrtcAnswerChannel, onWebrtcIceChannel, hm, ht]
    | some ch =>
      have hfind : findMemberByUserId ch (some t) = none := by
        simpa [resolveChannelMember, hm] using hres
      exact ⟨by simp [onWebrtcAnswerChannel, hm, hfind],
        by simp [onWebrtcIceChannel, ht, hm, hfind]⟩

/-- Witness for the amended C7 theorem at a concrete three-member state. -/
theorem c7_amended_channel_routing_witness :
    onWebrtcOfferChannel
        (runOps [Op.connect "A" 0, Op.connect "B" 1, Op.connect "C" 2,
          Op.join "A" "ch1" "a" 3, Op.join "B" "ch1" "b" 4, Op.join "C" "ch1" "c" 5])
        "A" "ch1" "a" "o" (some "b") =
      onWebrtcOfferChannel
        (runOps [Op.connect "A" 0, Op.connect "B" 1, Op.connect "C" 2,
          Op.join "A" "ch1" "a" 3, Op.join "B" "ch1" "b" 4, Op.join "C" "ch1" "c" 5])
        "A" "ch1" "a" "o" none ∧
    onWebrtcAnswerChannel
        (runOps [Op.connect "A" 0, Op.connect "B" 1, Op.connect "C" 2,
          Op.join "A" "ch1" "a" 3, Op.join "B" "ch1" "b" 4, Op.join "C" "ch1" "c" 5])
        "A" "ch1" "a" "ans" none = [] ∧
    onWebrtcAnswerChannel
        (runOps [Op.connect "A" 0, Op.connect "B" 1, Op.connect "C" 2,
          Op.join "A" "ch1" "a" 3, Op.join "B" "ch1" "b" 4, Op.join "C" "ch1" "c" 5])
        "A" "ch1" "a" "ans" (some "b") =
      [⟨"B", "webrtc-answer", EvPayload.relay "a" "ans"⟩] ∧
    onWebrtcIceChannel
        (runOps [Op.connect "A" 0, Op.connect "B" 1, Op.connect "C" 2,
          Op.join "A" "ch1" "a" 3, Op.join "B" "ch1" "b" 4, Op.join "C" "ch1" "c" 5])
        "A" "ch1" "a" "c9" (some "b") =
      [⟨"B", "webrtc-ice-candidate", EvPayload.relay "a" "c9"⟩] := by
  have h1 := c7_amended_channel_routing
    (runOps [Op.connect "A" 0, Op.connect "B" 1, Op.connect "C" 2,
      Op.join "A" "ch1" "a" 3, Op.join "B" "ch1" "b" 4, Op.join "C" "ch1" "c" 5])
    "A" "ch1" "a" "o"
  have h2 := c7_amended_channel_routing
    (runOps [Op.connect "A" 0, Op.connect "B" 1, Op.connect "C" 2,
      Op.join "A" "ch1" "a" 3, Op.join "B" "ch1" "b" 4, Op.join "C" "ch1" "c" 5])
    "A" "ch1" "a" "ans"
  have h3 := c7_amended_channel_routing
    (runOps [Op.connect "A" 0, Op.connect "B" 1, Op.connect "C" 2,
      Op.join "A" "ch1" "a" 3, Op.join "B" "ch1" "b" 4, Op.join "C" "ch1" "c" 5])
    "A" "ch1" "a" "c9"
  exact ⟨h1.1 (some "b") none, h2.2.2.1,
    (h2.2.2.2.1 "b" ⟨"b", "B", 4⟩ (by decide) (by decide)).1,
    (h3.2.2.2.1 "b" ⟨"b", "B", 4⟩ (by decide) (by decide)).2⟩

/-- C8, counterexample: the transmission relays never preserve a
client-supplied timestamp.  With A and B in ch1 and A sending
transmission-start carrying client timestamp 5 while the server clock
reads 100, the event broadcast to B carries timestamp 100, not 5 — the
handler destructures only channelId and userId and always stamps
Date.now(). -/
theorem c8_counterexample :
    (onTransmissionStart
        (runOps [Op.connect "A" 0, Op.connect "B" 1, Op.join "A" "ch1" "a" 2,
          Op.join "B" "ch1" "b" 3]) "A" "ch1" "a" (some 5) 100).2 =
      [⟨"B", "transmission-start", EvPayload.trans "a" 100⟩] ∧
    (onTransmissionStart
        (runOps [Op.connect "A" 0, Op.connect "B" 1, Op.join "A" "ch1" "a" 2,
          Op.join "B" "ch1" "b" 3]) "A" "ch1" "a" (some 5) 100).2 ≠
      [⟨"B", "transmission-start", EvPayload.trans "a" 5⟩] := by
  decide

/-- C8, amended: transmission-start and transmission-end broadcast to the
channel's room minus the sender, carrying the sender's userId and the
server-assigned timestamp unconditionally; the inbound payload's timestamp
is ignored entirely (the result does not depend on it), rather than being
preserved when present. -/
theorem c8_amended_server_timestamp (s : ServerState) (sid chId u : String)
    (ts1 ts2 : Option Nat) (now : Nat) :
    onTransmissionStart s sid chId u ts1 now = onTransmissionStart s sid chId u ts2 now ∧
    (onTransmissionStart s sid chId u ts1 now).2 =
      sendToRoom (roomMembers s.rooms chId) sid "transmission-start"
        (EvPayload.trans u now) ∧
    onTransmissionEnd s sid chId u ts1 now = onTransmissionEnd s sid chId u ts2 now ∧
    (onTransmissionEnd s sid chId u ts1 now).2 =
      sendToRoom (roomMembers s.rooms chId) sid "transmission-end"
        (EvPayload.trans u now) :=
  ⟨rfl, rfl, rfl, rfl⟩

theorem filter_ne_idem (l : List String) (sid : String) :
    (l.filter (fun t => decide (t ≠ sid))).filter (fun t => decide (t ≠ sid)) =
      l.filter (fun t => decide (t ≠ sid)) := by
  rw [List.filter_filter]
  apply List.filter_congr
  intro a _
  simp

theorem roomsRemoveAll_idem (rooms : List (String × List String)) (sid : String) :
    roomsRemoveAll (roomsRemoveAll rooms sid) sid = roomsRemoveAll rooms sid := by
  simp only [roomsRemoveAll, List.map_map]
  apply List.map_congr_left
  intro p _
  simp [Function.comp, filter_ne_idem]

theorem onDisconnect_unregistered (s : ServerState) (sid : String)
    (h : mget s.users sid = none) :
    onDisconnect s sid = (⟨s.channels, mdel s.users sid, roomsRemoveAll s.rooms sid⟩, []) := by
  simp only [onDisconnect, h]

/-- C9, counterexample: disconnect does not remove the connection from
every channel it is a member of.  First scenario: A joins ch1, then joins
ch2 (remaining in ch1's member Map), then disconnects: afterwards A is
gone from the registry but ch1's member Map still contains A — only the
currentChannel (ch2) was cleaned up.  Second scenario: with A and B both
joined to the channel named by the empty string, A's disconnect emits no
user-left at all and A's member entry survives in that channel — the
guard `if (user && user.currentChannel)` treats the empty string as falsy
and skips the cleanup. -/
theorem c9_counterexample :
    channelHasMember
        (runOps [Op.connect "A" 0, Op.join "A" "ch1" "a" 1, Op.join "A" "ch2" "a" 2])
        "ch1" "A" = true ∧
    channelHasMember
        (runOps [Op.connect "A" 0, Op.join "A" "ch1" "a" 1, Op.join "A" "ch2" "a" 2,
          Op.disconnect "A"]) "ch1" "A" = true ∧
    mget (runOps [Op.connect "A" 0, Op.join "A" "ch1" "a" 1, Op.join "A" "ch2" "a" 2,
          Op.disconnect "A"]).users "A" = none ∧
    (onDisconnect
        (runOps [Op.connect "A" 0, Op.connect "B" 1, Op.join "A" "" "alice" 2,
          Op.join "B" "" "bob" 3]) "A").2 = [] ∧
    channelHasMember
        (onDisconnect
          (runOps [Op.connect "A" 0, Op.connect "B" 1, Op.join "A" "" "alice" 2,
            Op.join "B" "" "bob" 3]) "A").1 "" "A" = true := by
  decide

/-- C9, amended: for a connection whose currentChannel at disconnect time
is a truthy (i.e. nonempty) channelId C, the disconnect removes it from
C's member Map, broadcasts one user-left with the stored userId to the
room minus the leaver, deletes C when it became empty (otherwise keeps the
shrunken member Map), removes the connection from the registry, and a
second disconnect afterwards is a complete no-op; membership in any
channel other than currentChannel is not cleaned up, and a falsy empty
currentChannel (reachable by joining channelId "") skips the channel
cleanup entirely. -/
theorem c9_amended_disconnect_current (s : ServerState) (sid : String) (u : UserRec)
    (chId : String) (ch : Channel)
    (hu : mget s.users sid = some u) (hcur : u.currentChannel = some chId)
    (hne : chId ≠ "") (hch : mget s.channels chId = some ch) :
    mget (onDisconnect s sid).1.users sid = none ∧
    channelHasMember (onDisconnect s sid).1 chId sid = false ∧
    mget (onDisconnect s sid).1.channels chId =
      (if (mdel ch.users sid).length = 0 then none
       else some { ch with users := mdel ch.users sid }) ∧
    (onDisconnect s sid).2 =
      sendToRoom (roomMembers s.rooms chId) sid "user-left" (EvPayload.left u.userId) ∧
    onDisconnect (onDisconnect s sid).1 sid = ((onDisconnect s sid).1, []) := by
  have hchans : (onDisconnect s sid).1.channels =
      (if (mdel ch.users sid).length = 0 then mdel s.channels chId
       else mset s.channels chId { ch with users := mdel ch.users sid }) := by
    simp only [onDisconnect, hu, hcur, if_neg hne, hch]
  have hchget : mget (onDisconnect s sid).1.channels chId =
      (if (mdel ch.users sid).length = 0 then none
       else some { ch with users := mdel ch.users sid }) := by
    rw [hchans]
    by_cases hlen : (mdel ch.users sid).length = 0
    · rw [if_pos hlen, if_pos hlen]
      exact mget_mdel_self _ _
    · rw [if_neg hlen, if_neg hlen]
      exact mget_mset_self _ _ _
  refine ⟨mget_mdel_self _ _, ?_, hchget, ?_, ?_⟩
  · simp only [channelHasMember, memberRecord, hchget]
    by_cases hlen : (mdel ch.users sid).length = 0
    · rw [if_pos hlen]
      simp
    · rw [if_neg hlen]
      simp [mget_mdel_self]
  · simp only [onDisconnect, hu, hcur, if_neg hne, hch]
  · have hget2 : mget (onDisconnect s sid).1.users sid = none := mget_mdel_self _ _
    have h1 : mdel (onDisconnect s sid).1.users sid = (onDisconnect s sid).1.users :=
      mdel_mdel _ _
    have h2 : roomsRemoveAll (onDisconnect s sid).1.rooms sid = (onDisconnect s sid).1.rooms :=
      roomsRemoveAll_idem _ _
    rw [onDisconnect_unregistered _ _ hget2, h1, h2]

/-- Witness for the amended C9 theorem at a concrete two-member state. -/
theorem c9_amended_disconnect_current_witness :
    mget (onDisconnect
        (runOps [Op.connect "A" 0, Op.connect "B" 1, Op.join "A" "ch1" "a" 2,
          Op.join "B" "ch1" "b" 3]) "B").1.users "B" = none ∧
    channelHasMember (onDisconnect
        (runOps [Op.connect "A" 0, Op.connect "B" 1, Op.join "A" "ch1" "a" 2,
          Op.join "B" "ch1" "b" 3]) "B").1 "ch1" "B" = false ∧
    (onDisconnect
        (runOps [Op.connect "A" 0, Op.connect "B" 1, Op.join "A" "ch1" "a" 2,
          Op.join "B" "ch1" "b" 3]) "B").2 =
      sendToRoom
        (roomMembers
          (runOps [Op.connect "A" 0, Op.connect "B" 1, Op.join "A" "ch1" "a" 2,
            Op.join "B" "ch1" "b" 3]).rooms "ch1") "B" "user-left"
        (EvPayload.left (some "b")) ∧
    onDisconnect (onDisconnect
        (runOps [Op.connect "A" 0, Op.connect "B" 1, Op.join "A" "ch1" "a" 2,
          Op.join "B" "ch1" "b" 3]) "B").1 "B" =
      ((onDisconnect
        (runOps [Op.connect "A" 0, Op.connect "B" 1, Op.join "A" "ch1" "a" 2,
          Op.join "B" "ch1" "b" 3]) "B").1, []) := by
  have h := c9_amended_disconnect_current
    (runOps [Op.connect "A" 0, Op.connect "B" 1, Op.join "A" "ch1" "a" 2,
      Op.join "B" "ch1" "b" 3]) "B" ⟨"B", 1, some "ch1", some "b"⟩ "ch1"
    ⟨"ch1", [("A", ⟨"a", "A", 2⟩), ("B", ⟨"b", "B", 3⟩)], 2, 0⟩
    (by decide) (by decide) (by decide) (by decide)
  exact ⟨h.1, h.2.1, h.2.2.2.1, h.2.2.2.2⟩

/-- C10: the user-left broadcast of an explicit leave-channel carries the
userId taken verbatim from the caller's payload — whatever string the
caller supplies, regardless of the registry's stored identity — while the
disconnect path's user-left (emitted when the stored currentChannel is a
truthy, nonempty channelId that exists) carries the registry's stored
userId; so a connection can emit a user-left bearing an arbitrary userId
different from its own. -/
theorem c10_user_left_identities (s : ServerState) (sid chId uid : String) (ch : Channel)
    (hch : mget s.channels chId = some ch) :
    (onLeaveChannel s sid chId uid).2 =
      sendToRoom (roomMembers s.rooms chId) sid "user-left" (EvPayload.left (some uid)) ∧
    (∀ u chId2 ch2, mget s.users sid = some u → u.currentChannel = some chId2 →
       chId2 ≠ "" → mget s.channels chId2 = some ch2 →
       (onDisconnect s sid).2 =
         sendToRoom (roomMembers s.rooms chId2) sid "user-left"
           (EvPayload.left u.userId)) := by
  constructor
  · simp only [onLeaveChannel, hch]
    rw [roomMembers_roomLeave, sendToRoom_filter_sender]
  · intro u chId2 ch2 hu hcur hne2 hch2
    simp only [onDisconnect, hu, hcur, if_neg hne2, hch2]

/-- Witness for the C10 theorem: A's stored identity is alice, yet its
leave-channel payload naming mallory broadcasts user-left mallory to B;
A's disconnect broadcasts user-left alice. -/
theorem c10_user_left_identities_witness :
    (onLeaveChannel
        (runOps [Op.connect "A" 0, Op.connect "B" 1, Op.join "A" "ch1" "alice" 2,
          Op.join "B" "ch1" "bob" 3]) "A" "ch1" "mallory").2 =
      sendToRoom
        (roomMembers
          (runOps [Op.connect "A" 0, Op.connect "B" 1, Op.join "A" "ch1" "alice" 2,
            Op.join "B" "ch1" "bob" 3]).rooms "ch1") "A" "user-left"
        (EvPayload.left (some "mallory")) ∧
    (onDisconnect
        (runOps [Op.connect "A" 0, Op.connect "B" 1, Op.join "A" "ch1" "alice" 2,
          Op.join "B" "ch1" "bob" 3]) "A").2 =
      sendToRoom
        (roomMembers
          (runOps [Op.connect "A" 0, Op.connect "B" 1, Op.join "A" "ch1" "alice" 2,
            Op.join "B" "ch1" "bob" 3]).rooms "ch1") "A" "user-left"
        (EvPayload.left (some "alice")) := by
  have h := c10_user_left_identities
    (runOps [Op.connect "A" 0, Op.connect "B" 1, Op.join "A" "ch1" "alice" 2,
      Op.join "B" "ch1" "bob" 3]) "A" "ch1" "mallory"
    ⟨"ch1", [("A", ⟨"alice", "A", 2⟩), ("B", ⟨"bob", "B", 3⟩)], 2, 0⟩ (by decide)
  exact ⟨h.1, h.2 ⟨"A", 0, some "ch1", some "alice"⟩ "ch1"
    ⟨"ch1", [("A", ⟨"alice", "A", 2⟩), ("B", ⟨"bob", "B", 3⟩)], 2, 0⟩
    (by decide) (by decide) (by decide) (by decide)⟩

end Walkie
